import Mathlib

/-!
Formal model of the core of the `stock_factor` dashboards: the connection
cache (`DBManager.get_engine` in `src/utils/db.py` and the two page files),
the SQL fetch queries, the momentum factor pipeline (`calc_momentum` in
`src/momentum_dashboard.py`), the rolling Spearman correlation and the
information-coefficient aggregation (`src/pages/资金流同步相关性因子.py`),
and the per-entity aggregation loop of `src/momentum_dashboard.py`.

Numeric values are modelled as rationals (prices, factor values) and reals
where a square root occurs (Pearson/Spearman correlation).  A pandas `NaN`
is modelled as `none` in an `Option`; `dropna` is `filterMap`.
-/

set_option linter.unusedVariables false

/-! ## Connection/engine cache (`DBManager.get_engine`)

`src/utils/db.py` keeps a class-level dict `_engines` from database name to
SQLAlchemy engine.  `get_engine(database_name)` constructs and caches an
engine when the key is absent (showing a success notification), shows an
error notification and caches nothing when construction raises, and finally
returns `_engines.get(database_name)`.

The engine itself is opaque in the source; we model it as an identifier
together with a liveness bit so that statements about dead handles can be
expressed.  `get_engine` in the source never inspects the cached engine
object, and accordingly the model never reads the `alive` field.
Construction is modelled by an `Option Engine` argument: `some e` means
`create_engine` returns the fresh engine `e`, `none` means it raises. -/

structure Engine where
  id : Nat
  alive : Bool
  deriving DecidableEq, Repr

/-- Result of one `get_engine` call: the value returned to the caller, the
cache (`_engines`) afterwards, whether a new engine was constructed and
cached, and whether the error notification (`st.error`) was shown. -/
structure AcquireResult where
  engine : Option Engine
  cache : List (String × Engine)
  constructed : Bool
  errored : Bool
  deriving DecidableEq, Repr

/-- Lookup in the `_engines` dict, modelled as an association list. -/
def findEngine : List (String × Engine) → String → Option Engine
  | [], _ => none
  | (k, v) :: rest, db => if k = db then some v else findEngine rest db

/-- Model of `DBManager.get_engine` (src/utils/db.py lines 9-35; the same
logic appears in both page files).  If `database_name` is not cached, it
attempts construction: on success the engine is cached and returned, on
failure an error is shown and `_engines.get` returns `none` with the cache
unchanged.  A cached engine is returned as is, with no construction, no
notification and, notably, no liveness check. -/
def get_engine (cache : List (String × Engine)) (construct : Option Engine)
    (db : String) : AcquireResult :=
  match findEngine cache db with
  | some e => ⟨some e, cache, false, false⟩
  | none =>
    match construct with
    | some e => ⟨some e, (db, e) :: cache, true, false⟩
    | none => ⟨none, cache, false, true⟩

/-- Claim C2: two consecutive `get_engine` calls with the same store
identifier and no intervening release return the same underlying handle:
whenever the first call returns a handle `e`, the second call returns that
cached `e`, constructs no new engine, and leaves the cache unchanged. -/
theorem acquire_idempotent (cache : List (String × Engine))
    (c₁ c₂ : Option Engine) (db : String) (e : Engine)
    (h : (get_engine cache c₁ db).engine = some e) :
    get_engine (get_engine cache c₁ db).cache c₂ db =
      ⟨some e, (get_engine cache c₁ db).cache, false, false⟩ := by
  rcases hfind : findEngine cache db with _ | e₀
  · rcases c₁ with _ | e₁
    · simp [get_engine, hfind] at h
    · obtain rfl : e₁ = e := by simpa [get_engine, hfind] using h
      simp [get_engine, hfind, findEngine]
  · obtain rfl : e₀ = e := by simpa [get_engine, hfind] using h
    simp [get_engine, hfind]

/-- Claim C2 witness: after a first call constructs and caches the engine
for `"index_price_day"`, a second call returns that same engine without
constructing a new one. -/
theorem acquire_idempotent_witness :
    get_engine [("index_price_day", ⟨1, true⟩)] none "index_price_day" =
      ⟨some ⟨1, true⟩, [("index_price_day", ⟨1, true⟩)], false, false⟩ :=
  acquire_idempotent [] (some ⟨1, true⟩) none "index_price_day" ⟨1, true⟩
    (by decide)

/-- Claim C3 (code bug): `get_engine` performs no liveness validation on a
cached handle.  With a dead engine (`alive = false`) cached for
`"index_price_day"` and a live replacement available from the constructor,
the call returns the dead cached engine unchanged and constructs nothing,
contradicting the claimed validate-then-recreate behaviour. -/
theorem cached_dead_engine_returned :
    get_engine [("index_price_day", ⟨1, false⟩)] (some ⟨2, true⟩)
        "index_price_day" =
      ⟨some ⟨1, false⟩, [("index_price_day", ⟨1, false⟩)], false, false⟩ := by
  decide

/-- Claim C6: when construction for an uncached store identifier fails,
`get_engine` shows the error notification and returns `none` to the caller
(the page-level "ConnectionError" surface), caches no broken handle (the
cache is unchanged), and the next call for the same identifier retries
construction (here: a succeeding constructor is consulted, constructs, and
its engine is cached and returned). -/
theorem acquire_failure_no_cache (cache : List (String × Engine))
    (db : String) (e : Engine) (h : findEngine cache db = none) :
    get_engine cache none db = ⟨none, cache, false, true⟩ ∧
    get_engine cache (some e) db = ⟨some e, (db, e) :: cache, true, false⟩ := by
  constructor <;> simp [get_engine, h]

/-- Claim C6 witness: with an empty cache, a failing construction for
`"index_big_order"` surfaces the error, caches nothing, and the next call
with a working constructor constructs and returns a fresh engine. -/
theorem acquire_failure_no_cache_witness :
    get_engine [] none "index_big_order" = ⟨none, [], false, true⟩ ∧
    get_engine [] (some ⟨1, true⟩) "index_big_order" =
      ⟨some ⟨1, true⟩, [("index_big_order", ⟨1, true⟩)], true, false⟩ :=
  acquire_failure_no_cache [] "index_big_order" ⟨1, true⟩ rfl

/-! ## Fetch queries (`get_data`, `get_data_from_db`)

Each fetcher builds a SQL string by f-string interpolation of the table
name; only `get_data` in `src/pages/动量因子.py` additionally binds the two
date bounds as parameters (`params=(start_date, end_date)`).  A query is
modelled as its text together with the list of bound parameter values.
Whitespace of the original triple-quoted SQL is normalised to single
spaces. -/

structure SQLQuery where
  text : String
  params : List String
  deriving DecidableEq, Repr

/-- Query built by `get_data` in `src/pages/动量因子.py` (lines 49-57): the
table name is interpolated into the text, the date bounds are bound as
parameters. -/
def momentum_page_query (index_name start_date end_date : String) : SQLQuery :=
  ⟨"SELECT time, close FROM `" ++ index_name ++
      "` WHERE time BETWEEN %s AND %s ORDER BY time",
    [start_date, end_date]⟩

/-- Query built by `get_data` in `src/momentum_dashboard.py` (line 27): no
date bounds at all (dates are filtered in pandas afterwards). -/
def dashboard_query (index_name : String) : SQLQuery :=
  ⟨"SELECT time, close FROM `" ++ index_name ++ "` ORDER BY time", []⟩

/-- Query built by `get_data_from_db` in
`src/pages/资金流同步相关性因子.py` (line 57): whole table, no parameters
and no ORDER BY. -/
def flow_query (table_name : String) : SQLQuery :=
  ⟨"SELECT * FROM `" ++ table_name ++ "`", []⟩

/-- Claim C9 (code bug): the fetch queries interpolate the entity/table
identifier into the query text unconditionally — no fetcher consults any
allow-list of discovered relation names.  The date bounds, where present,
are bound as parameters and never appear in the text (the text is the same
whatever the bounds are).  At the failing input, a table name carrying an
injection payload is embedded verbatim in all three query texts. -/
theorem fetch_queries_embed_unvalidated_identifier :
    (∀ name s e, (momentum_page_query name s e).params = [s, e] ∧
      (momentum_page_query name s e).text =
        (momentum_page_query name "1970-01-01" "1970-01-02").text) ∧
    (momentum_page_query "x`; DROP TABLE t; --" "2024-01-01"
          "2024-12-31").text =
      "SELECT time, close FROM `x`; DROP TABLE t; --` WHERE time BETWEEN %s AND %s ORDER BY time" ∧
    (dashboard_query "x`; DROP TABLE t; --").text =
      "SELECT time, close FROM `x`; DROP TABLE t; --` ORDER BY time" ∧
    (flow_query "x`; DROP TABLE t; --").text =
      "SELECT * FROM `x`; DROP TABLE t; --`" :=
  ⟨fun name s e => ⟨rfl, rfl⟩, rfl, rfl, rfl⟩

/-! ## Fetch result ordering

A price-store relation is a list of `(time, close)` rows in whatever order
the store holds them; a flow relation likewise with two value columns.
`ORDER BY time` is modelled as an insertion sort on the timestamp;
`SELECT *` without `ORDER BY` returns the rows in store order. -/

/-- Row order used by `ORDER BY time` for price rows. -/
def timeLE (a b : Nat × ℚ) : Prop := a.1 ≤ b.1

instance : DecidableRel timeLE := fun a b => Nat.decLe a.1 b.1

instance : IsTotal (Nat × ℚ) timeLE := ⟨fun a b => Nat.le_total a.1 b.1⟩

instance : IsTrans (Nat × ℚ) timeLE := ⟨fun _ _ _ => Nat.le_trans⟩

/-- Result set of `SELECT ... ORDER BY time` over a stored relation. -/
def sortByTime (store : List (Nat × ℚ)) : List (Nat × ℚ) :=
  store.insertionSort timeLE

/-- Model of the data returned by `get_data` in `src/pages/动量因子.py`:
rows of the relation with `time` between the bounds, ordered by `time`. -/
def get_data (store : List (Nat × ℚ)) (s e : Nat) : List (Nat × ℚ) :=
  sortByTime (store.filter fun r => decide (s ≤ r.1 ∧ r.1 ≤ e))

/-- Model of the data returned by `get_data` in
`src/momentum_dashboard.py`: the whole relation ordered by `time`. -/
def get_data_md (store : List (Nat × ℚ)) : List (Nat × ℚ) :=
  sortByTime store

/-- Model of the data returned by `get_data_from_db` in
`src/pages/资金流同步相关性因子.py`: `SELECT *` with no ORDER BY returns
the rows in store order. -/
def get_data_from_db (store : List (Nat × ℚ × ℚ)) : List (Nat × ℚ × ℚ) :=
  store

/-- Claim C8 counterexample: the flow fetch issues no ORDER BY, so on a
store whose relation holds a later timestamp first, the fetched records
are not ascending by timestamp. -/
theorem flow_fetch_not_ordered :
    ¬ List.Sorted (fun (a b : Nat × ℚ × ℚ) => a.1 ≤ b.1)
      (get_data_from_db [(2, 5, 3), (1, 7, 4)]) := by
  decide

/-- Claim C8 as amended: the two price fetches (`get_data` in both momentum
pages) return records ascending by timestamp for every store and date
range, because their queries end in `ORDER BY time`; the flow fetch
(`get_data_from_db`) returns the store's relation in store order, so its
ordering is exactly the store's. -/
theorem price_fetch_ordered :
    (∀ store s e, List.Sorted timeLE (get_data store s e)) ∧
    (∀ store, List.Sorted timeLE (get_data_md store)) ∧
    (∀ store, get_data_from_db store = store) :=
  ⟨fun store s e => List.sorted_insertionSort timeLE _,
    fun store => List.sorted_insertionSort timeLE store,
    fun store => rfl⟩

/-! ## Momentum factor (`calc_momentum`)

`calc_momentum(df, days)` in `src/momentum_dashboard.py` (lines 31-34; the
same computation appears inline in `get_data` of `src/pages/动量因子.py`,
lines 59-64) sets `df['momentum'] = df['close'].pct_change(days)`, sets
`df['percentile'] = df['momentum'].rank(pct=True)`, and returns
`df.dropna()`.

`pct_change(w)` leaves the first `min w n` entries NaN and computes
`close[i] / close[i-w] - 1` for `i ≥ w`.  `rank(pct=True)` assigns each
non-NaN value its average fractional rank among the non-NaN values divided
by their count, and NaN to NaN entries; `dropna` therefore removes exactly
the rows whose momentum is NaN.  Values are rationals; where a lagged
close is zero, pandas would produce an infinity (kept by `dropna`) rather
than the rational division convention used here, so value statements are
read on series of nonzero closes, as prices are. -/

/-- Model of `Series.pct_change(w)` on the close column. -/
def pctChange (closes : List ℚ) (w : Nat) : List (Option ℚ) :=
  List.replicate (min w closes.length) none ++
    (List.zipWith (fun cur prev => cur / prev - 1) (closes.drop w) closes).map
      some

/-- Average fractional rank of `x` within the values `vs`, as a fraction of
`vs.length` (pandas `rank(pct=True)`, default method `average`). -/
def pctOf (vs : List ℚ) (x : ℚ) : ℚ :=
  (((vs.countP fun y => decide (y < x)) : ℚ) +
      (((vs.countP fun y => decide (y = x)) : ℚ) + 1) / 2) / vs.length

/-- Model of `Series.rank(pct=True)`: NaN entries stay NaN, each defined
entry gets its fractional rank among the defined entries. -/
def rankPct (l : List (Option ℚ)) : List (Option ℚ) :=
  l.map (Option.map (pctOf (l.filterMap id)))

/-- Row filter of `df.dropna()`: keep a row exactly when both derived
columns are defined (the time and close columns of a fetched row are
always defined). -/
def keepDefined : (Nat × ℚ) × Option ℚ × Option ℚ → Option (Nat × ℚ × ℚ × ℚ)
  | ((t, c), some m, some p) => some (t, c, m, p)
  | _ => none

/-- Model of `calc_momentum`: rows `(time, close)` in, rows
`(time, close, momentum, percentile)` out, NaN rows dropped. -/
def calcMomentum (rows : List (Nat × ℚ)) (w : Nat) : List (Nat × ℚ × ℚ × ℚ) :=
  let moms := pctChange (rows.map Prod.snd) w
  (rows.zip (moms.zip (rankPct moms))).filterMap keepDefined

/-- The defined momentum values: `close[j+w] / close[j] - 1` for
`j = 0, …, n-w-1`. -/
def momVals (rows : List (Nat × ℚ)) (w : Nat) : List ℚ :=
  List.zipWith (fun cur prev => cur / prev - 1)
    ((rows.map Prod.snd).drop w) (rows.map Prod.snd)

theorem keepDefined_none_left (r : Nat × ℚ) (q : Option ℚ) :
    keepDefined (r, none, q) = none := by
  rcases r with ⟨t, c⟩
  cases q <;> rfl

theorem filterMap_keepDefined_replicate (xs : List (Nat × ℚ)) (k : Nat) :
    (xs.zip
        (List.replicate k ((none : Option ℚ), (none : Option ℚ)))).filterMap
      keepDefined = [] := by
  induction xs generalizing k with
  | nil => simp
  | cons x xs ih =>
    cases k with
    | zero => simp
    | succ k =>
      simp [List.replicate_succ, List.filterMap_cons, keepDefined_none_left,
        ih]

theorem filterMap_keepDefined_somes (g : ℚ → ℚ) (xs : List (Nat × ℚ))
    (ys : List ℚ) :
    (xs.zip
        (ys.map fun m => ((some m : Option ℚ), (some (g m) : Option ℚ)))).filterMap
        keepDefined =
      List.zipWith (fun (r : Nat × ℚ) (m : ℚ) => (r.1, r.2, m, g m)) xs ys := by
  induction xs generalizing ys with
  | nil => simp
  | cons x xs ih =>
    cases ys with
    | nil => simp
    | cons y ys =>
      obtain ⟨t, c⟩ := x
      simp [List.filterMap_cons, keepDefined, ih]

theorem pctChange_eq_append (rows : List (Nat × ℚ)) (w : Nat) :
    pctChange (rows.map Prod.snd) w =
      List.replicate (min w rows.length) none ++ (momVals rows w).map some := by
  simp [pctChange, momVals]

theorem filterMap_id_pctChange (rows : List (Nat × ℚ)) (w : Nat) :
    (pctChange (rows.map Prod.snd) w).filterMap id = momVals rows w := by
  rw [pctChange_eq_append, List.filterMap_append]
  have h1 : (List.replicate (min w rows.length)
      (none : Option ℚ)).filterMap id = [] := by
    induction (min w rows.length) with
    | zero => rfl
    | succ n ih => simp [List.replicate_succ, List.filterMap_cons, ih]
  rw [h1]
  simp

theorem zip_replicate_replicate (n : Nat) (a b : Option ℚ) :
    (List.replicate n a).zip (List.replicate n b) = List.replicate n (a, b) := by
  induction n with
  | zero => rfl
  | succ n ih => simp [List.replicate_succ, ih]

/-- Closed form of `calc_momentum`: the output is, row for row, the input
shifted by `w`, paired with the lag-`w` percentage change and its
percentile. -/
theorem calcMomentum_eq (rows : List (Nat × ℚ)) (w : Nat) :
    calcMomentum rows w =
      List.zipWith
        (fun (r : Nat × ℚ) (m : ℚ) => (r.1, r.2, m, pctOf (momVals rows w) m))
        (rows.drop w) (momVals rows w) := by
  set mv := momVals rows w with hmv
  set g := pctOf mv with hg
  have hrank : rankPct (pctChange (rows.map Prod.snd) w) =
      List.replicate (min w rows.length) none ++
        mv.map fun m => some (g m) := by
    rw [rankPct, filterMap_id_pctChange, pctChange_eq_append, ← hmv, ← hg,
      List.map_append, List.map_replicate, List.map_map]
    rfl
  simp only [calcMomentum]
  rw [hrank, pctChange_eq_append, ← hmv,
    List.zip_append (by simp),
    zip_replicate_replicate, List.zip_map' some (fun m => some (g m)) mv]
  conv_lhs => rw [← List.take_append_drop w rows]
  rw [List.zip_append (by simp [List.length_take]),
    List.filterMap_append, filterMap_keepDefined_replicate,
    filterMap_keepDefined_somes, List.nil_append]

theorem calcMomentum_length (rows : List (Nat × ℚ)) (w : Nat) :
    (calcMomentum rows w).length = rows.length - w := by
  rw [calcMomentum_eq]
  simp [List.length_zipWith, momVals]

theorem getD_zipWith {α β γ : Type} (f : α → β → γ) (xs : List α)
    (ys : List β) (j : Nat) (d : γ) (da : α) (db : β) (h1 : j < xs.length)
    (h2 : j < ys.length) :
    (List.zipWith f xs ys).getD j d = f (xs.getD j da) (ys.getD j db) := by
  have hz : j < (List.zipWith f xs ys).length := by
    rw [List.length_zipWith]
    exact lt_min h1 h2
  rw [List.getD_eq_getElem _ _ hz, List.getD_eq_getElem _ _ h1,
    List.getD_eq_getElem _ _ h2, List.getElem_zipWith]

theorem getD_drop_eq {α : Type} (l : List α) (n j : Nat) (d : α)
    (h : j < (l.drop n).length) :
    (l.drop n).getD j d = l.getD (n + j) d := by
  have h2 : n + j < l.length := by
    simp only [List.length_drop] at h
    omega
  rw [List.getD_eq_getElem _ _ h, List.getD_eq_getElem _ _ h2,
    List.getElem_drop]

theorem getD_map_snd (rows : List (Nat × ℚ)) (j : Nat) (h : j < rows.length) :
    (rows.map Prod.snd).getD j 0 = (rows.getD j (0, 0)).2 := by
  rw [List.getD_eq_getElem _ _ (by simpa using h),
    List.getD_eq_getElem _ _ h, List.getElem_map]

/-- Claim C1: `calc_momentum` has no defined momentum for the first `w`
rows and drops exactly them: on `n` input rows the output has `n - w`
rows, and output row `j` is input row `j + w` carrying momentum
`close[j+w] / close[j] - 1` — i.e. each surviving input index `i = j + w ≥
w` carries exactly `S[i] / S[i-w] - 1`. -/
theorem momentum_values (rows : List (Nat × ℚ)) (w : Nat) :
    (calcMomentum rows w).length = rows.length - w ∧
    ∀ j, j < rows.length - w →
      ((calcMomentum rows w).getD j (0, 0, 0, 0)).1 =
          (rows.getD (j + w) (0, 0)).1 ∧
      ((calcMomentum rows w).getD j (0, 0, 0, 0)).2.2.1 =
        (rows.getD (j + w) (0, 0)).2 / (rows.getD j (0, 0)).2 - 1 := by
  refine ⟨calcMomentum_length rows w, fun j hj => ?_⟩
  have hd : j < (rows.drop w).length := by
    simp only [List.length_drop]
    exact hj
  have hmvlen : (momVals rows w).length = rows.length - w := by
    simp [momVals, List.length_zipWith]
  have hmv : j < (momVals rows w).length := by
    rw [hmvlen]
    exact hj
  have h1 : j < ((rows.map Prod.snd).drop w).length := by
    simp only [List.length_drop, List.length_map]
    exact hj
  have h2 : j < (rows.map Prod.snd).length := by
    simp only [List.length_map]
    omega
  rw [calcMomentum_eq,
    getD_zipWith _ _ _ _ _ ((0 : Nat), (0 : ℚ)) 0 hd hmv]
  dsimp only
  constructor
  · rw [getD_drop_eq _ _ _ _ hd, Nat.add_comm w j]
  · rw [momVals, getD_zipWith _ _ _ _ _ 0 0 h1 h2, getD_drop_eq _ _ _ _ h1,
      getD_map_snd _ _ (by omega), getD_map_snd _ _ (by omega),
      Nat.add_comm w j]

/-- Claim C1 witness: on rows with closes `[2, 4, 8]` and window 1 the
output has two rows, and its second row carries momentum `8/4 - 1 = 1`. -/
theorem momentum_values_witness :
    (calcMomentum [(1, (2 : ℚ)), (2, 4), (3, 8)] 1).length = 2 ∧
    ((calcMomentum [(1, (2 : ℚ)), (2, 4), (3, 8)] 1).getD 1
        (0, 0, 0, 0)).2.2.1 = 1 := by
  have h := momentum_values [(1, (2 : ℚ)), (2, 4), (3, 8)] 1
  refine ⟨h.1, ?_⟩
  rw [(h.2 1 (by norm_num)).2]
  show (8 : ℚ) / 4 - 1 = 1
  norm_num

/-- The five-day close series of the end-to-end example scenario. -/
def exampleRows : List (Nat × ℚ) :=
  [(20240101, 100), (20240102, 102), (20240103, 101), (20240104, 105),
    (20240105, 110)]

/-- Claim C4 counterexample: with closes `[100, 102, 101, 105, 110]` and
window 2, the momentum series is not the claimed
`[(01-03, 101/102-1), (01-04, 105/100-1), (01-05, 110/101-1)]` (those
first two values use lags 1 and 3 instead of 2). -/
theorem momentum_example_not_as_claimed :
    ¬ ((calcMomentum exampleRows 2).map (fun r => (r.1, r.2.2.1)) =
      [(20240103, 101 / 102 - 1), (20240104, 105 / 100 - 1),
        (20240105, (110 : ℚ) / 101 - 1)]) := by
  rw [calcMomentum_eq]
  norm_num [exampleRows, momVals]

/-- Claim C4 as amended: with closes `[100, 102, 101, 105, 110]` on
2024-01-01..05 and window 2, the momentum series after dropping the first
2 undefined points is `[(2024-01-03, 101/100-1), (2024-01-04, 105/102-1),
(2024-01-05, 110/101-1)]`. -/
theorem momentum_example_values :
    (calcMomentum exampleRows 2).map (fun r => (r.1, r.2.2.1)) =
      [(20240103, 101 / 100 - 1), (20240104, 105 / 102 - 1),
        (20240105, (110 : ℚ) / 101 - 1)] := by
  rw [calcMomentum_eq]
  simp [exampleRows, momVals]

/-- Claim C5 counterexample: momentum with window 2 on the five-row
example drops two rows, not `window - 1 = 1`: the output length is 3, not
4. -/
theorem momentum_drops_window_not_window_sub_one :
    ¬ ((calcMomentum exampleRows 2).length = exampleRows.length - (2 - 1)) := by
  decide

/-! ## Spearman rank correlation and the rolling factor

`rolling_spearman(series1, series2, window)` in
`src/pages/资金流同步相关性因子.py` (lines 95-101) computes
`series1.rolling(window).apply(lambda x: spearmanr(x, series2.loc[x.index])[0])`:
for each position with fewer than `window` preceding observations the
result is NaN; otherwise it is the Spearman rank correlation of the two
aligned trailing windows.  `scipy.stats.spearmanr` is the Pearson
correlation of the average-rank transforms, NaN when either window has
zero rank variance.  `calculate_factor` then drops NaN rows with
`df.dropna()`. -/

/-- Arithmetic mean of a rational list (population convention). -/
def qmean (l : List ℚ) : ℚ := l.sum / l.length

/-- Population variance of a rational list. -/
def popVar (l : List ℚ) : ℚ := ((l.map fun x => (x - qmean l) ^ 2).sum) / l.length

/-- Population covariance of two aligned rational lists. -/
def popCov (a b : List ℚ) : ℚ :=
  ((List.zipWith (fun x y => (x - qmean a) * (y - qmean b)) a b).sum) / a.length

/-- Average ranks (ties averaged) of a list, as used by `spearmanr`. -/
def rankAvg (l : List ℚ) : List ℚ :=
  l.map fun x =>
    ((l.countP fun y => decide (y < x)) : ℚ) +
      (((l.countP fun y => decide (y = x)) : ℚ) + 1) / 2

/-- Pearson correlation; `none` models the NaN produced when either list
has zero variance. -/
noncomputable def pearson (a b : List ℚ) : Option ℝ :=
  if popVar a = 0 ∨ popVar b = 0 then none
  else some ((popCov a b : ℝ) / Real.sqrt ((popVar a * popVar b : ℚ) : ℝ))

/-- Model of `scipy.stats.spearmanr(a, b)[0]` on aligned windows: Pearson
correlation of the rank transforms, NaN for degenerate input. -/
noncomputable def spearman (a b : List ℚ) : Option ℝ :=
  if a.length < 2 then none else pearson (rankAvg a) (rankAvg b)

/-- Model of `rolling_spearman(a, b, w)`: entry `i` is NaN for
`i + 1 < w` (fewer than `w` observations so far, `min_periods = window`),
otherwise the Spearman correlation of the length-`w` trailing windows. -/
noncomputable def rollingSpearman (a b : List ℚ) (w : Nat) : List (Option ℝ) :=
  (List.range a.length).map fun i =>
    if i + 1 < w then none
    else spearman ((a.drop (i + 1 - w)).take w) ((b.drop (i + 1 - w)).take w)

/-- Claim C5 as amended: momentum with window `w` leaves exactly the first
`w` observations undefined and drops them (output length `n - w`), while
the rolling rank correlation with window `w` is undefined at (at least)
the first `w - 1` positions, so its first defined value can occur at the
`w`-th observation; undefined rows are dropped by the callers. -/
theorem warmup_rows :
    (∀ (rows : List (Nat × ℚ)) (w : Nat),
        (calcMomentum rows w).length = rows.length - w) ∧
    (∀ (a b : List ℚ) (w : Nat),
        (rollingSpearman a b w).take (w - 1) =
          List.replicate (min (w - 1) a.length) none) := by
  refine ⟨calcMomentum_length, fun a b w => ?_⟩
  rw [rollingSpearman, ← List.map_take, List.take_range]
  refine List.eq_replicate_iff.mpr ⟨by simp, fun o ho => ?_⟩
  obtain ⟨i, hi, rfl⟩ := List.mem_map.mp ho
  rw [List.mem_range] at hi
  have hi1 : i < w - 1 := lt_of_lt_of_le hi (Nat.min_le_left _ _)
  have hi2 : i + 1 < w := by omega
  simp [hi2]

/-! ## Information-coefficient summary (`plot_ic_values`)

`plot_ic_values` (src/pages/资金流同步相关性因子.py lines 200-240) buckets
the merged factor/forward-return series into `hold_days`-day periods,
computes `spearmanr(factor, forward_return)` per bucket when the bucket
has at least 2 points (NaN otherwise), drops NaN ICs, and aggregates per
horizon with
`{'ic': ['mean', 'std', lambda x: x.mean()/x.std() if x.std()!=0 else np.nan]}`.
Pandas `mean` of an empty series and `std` of fewer than two points are
NaN; `std` uses the `ddof = 1` sample convention; `NaN != 0` is true in
float comparison, so a NaN `std` also makes the lambda produce NaN. -/

/-- Pandas `Series.mean`: NaN on an empty series. -/
noncomputable def sampleMean (l : List ℝ) : Option ℝ :=
  if l.length = 0 then none else some (l.sum / l.length)

/-- Pandas `Series.var` with `ddof = 1`: NaN on fewer than two points. -/
noncomputable def sampleVar (l : List ℝ) : Option ℝ :=
  if l.length < 2 then none
  else some ((l.map fun x => (x - l.sum / l.length) ^ 2).sum /
    ((l.length : ℝ) - 1))

/-- Pandas `Series.std` with `ddof = 1`: square root of the sample
variance. -/
noncomputable def icStd (l : List ℝ) : Option ℝ := (sampleVar l).map Real.sqrt

open Classical in
/-- The aggregation lambda `x.mean()/x.std() if x.std()!=0 else np.nan`:
NaN when the standard deviation is 0 or itself NaN, otherwise
`mean / std`. -/
noncomputable def ic_ir (l : List ℝ) : Option ℝ :=
  match sampleVar l, sampleMean l with
  | some v, some m => if v = 0 then none else some (m / Real.sqrt v)
  | _, _ => none

/-- One row of the IC summary table: `(平均IC, IC标准差, IC_IR)`. -/
noncomputable def icSummary (l : List ℝ) : Option ℝ × Option ℝ × Option ℝ :=
  (sampleMean l, icStd l, ic_ir l)

/-- Per-bucket ICs of one horizon: `spearmanr` where the bucket has at
least two points, NaN otherwise, with NaN ICs dropped
(`period_data.dropna()`). -/
noncomputable def bucketICs (buckets : List (List ℚ × List ℚ)) : List ℝ :=
  buckets.filterMap fun b => if 2 ≤ b.1.length then spearman b.1 b.2 else none

theorem spearman_some_length (a b : List ℚ) (r : ℝ)
    (h : spearman a b = some r) : 2 ≤ a.length := by
  by_contra hlen
  rw [spearman, if_pos (by omega)] at h
  exact Option.noConfusion h

theorem bucketICs_all_neg_one (buckets : List (List ℚ × List ℚ))
    (hall : ∀ b ∈ buckets, spearman b.1 b.2 = some (-1)) :
    bucketICs buckets = List.replicate buckets.length (-1) := by
  induction buckets with
  | nil => rfl
  | cons b bs ih =>
    have hb := hall b (List.mem_cons_self b bs)
    have hlen : 2 ≤ b.1.length := spearman_some_length _ _ _ hb
    have hstep : bucketICs (b :: bs) = -1 :: bucketICs bs := by
      simp only [bucketICs, List.filterMap_cons]
      simp [hlen, hb]
    rw [hstep, ih fun x hx => hall x (List.mem_cons_of_mem _ hx),
      List.length_cons, List.replicate_succ]

theorem sampleMean_replicate (n : Nat) (hn : n ≠ 0) (c : ℝ) :
    sampleMean (List.replicate n c) = some c := by
  have hne : (n : ℝ) ≠ 0 := Nat.cast_ne_zero.mpr hn
  rw [sampleMean, if_neg (by simpa using hn)]
  congr 1
  rw [List.sum_replicate, List.length_replicate, nsmul_eq_mul, mul_comm]
  exact mul_div_cancel_right₀ c hne

theorem sampleVar_replicate (n : Nat) (hn : 2 ≤ n) (c : ℝ) :
    sampleVar (List.replicate n c) = some 0 := by
  have hne : (n : ℝ) ≠ 0 := Nat.cast_ne_zero.mpr (by omega)
  rw [sampleVar, if_neg (by rw [List.length_replicate]; omega)]
  congr 1
  simp only [List.sum_replicate, List.length_replicate, List.map_replicate,
    nsmul_eq_mul]
  rw [show (n : ℝ) * c / n = c from by
    rw [mul_comm]; exact mul_div_cancel_right₀ c hne]
  simp

theorem sampleVar_nonneg (l : List ℝ) (v : ℝ) (h : sampleVar l = some v) :
    0 ≤ v := by
  rw [sampleVar] at h
  split_ifs at h with hc
  injection h with h
  rw [← h]
  apply div_nonneg
  · refine List.sum_nonneg fun x hx => ?_
    obtain ⟨y, hy, rfl⟩ := List.mem_map.mp hx
    positivity
  · have h1 : (1 : ℝ) ≤ l.length := by exact_mod_cast (by omega : 1 ≤ l.length)
    linarith

theorem sampleMean_of_var (l : List ℝ) (v : ℝ) (h : sampleVar l = some v) :
    sampleMean l = some (l.sum / l.length) := by
  rw [sampleVar] at h
  split_ifs at h with hc
  rw [sampleMean, if_neg (by omega)]

theorem rankAvg_12 : rankAvg [1, 2] = [1, 2] := by
  norm_num [rankAvg, List.countP_cons]

theorem rankAvg_21 : rankAvg [2, 1] = [2, 1] := by
  norm_num [rankAvg, List.countP_cons]

/-- Evaluation of `spearmanr` on a concrete perfectly anti-ordered pair of
windows: the correlation is exactly `-1`. -/
theorem spearman_eval : spearman [1, 2] [2, 1] = some (-1) := by
  rw [spearman, if_neg (by norm_num), pearson, rankAvg_12, rankAvg_21]
  have hv1 : popVar [1, 2] = 1/4 := by norm_num [popVar, qmean]
  have hv2 : popVar [2, 1] = 1/4 := by norm_num [popVar, qmean]
  have hcov : popCov [1, 2] [2, 1] = -(1/4) := by norm_num [popCov, qmean]
  rw [if_neg (by rw [hv1, hv2]; norm_num), hcov, hv1, hv2]
  have hs : Real.sqrt (((1/4 * (1/4) : ℚ) : ℝ)) = 1/4 := by
    rw [show (((1/4 * (1/4) : ℚ)) : ℝ) = (1/4 : ℝ) ^ 2 by push_cast; norm_num,
      Real.sqrt_sq (by norm_num)]
  rw [hs]
  push_cast
  norm_num

/-- Claim C7: the per-horizon IC summary is the mean and `ddof = 1`
standard deviation of the per-bucket Spearman ICs together with an
information coefficient quotient `mean / std` that is NaN when the
standard deviation is exactly 0 (and when it is undefined); in
particular, when every bucket is perfectly negatively correlated
(`spearmanr = -1`) and there are at least two buckets, the summary row is
`mean = -1`, `std = 0`, quotient NaN. -/
theorem ic_summary_spec :
    (∀ buckets : List (List ℚ × List ℚ), 2 ≤ buckets.length →
        (∀ b ∈ buckets, spearman b.1 b.2 = some (-1)) →
        icSummary (bucketICs buckets) = (some (-1), some 0, none)) ∧
    (∀ l v m, sampleVar l = some v → sampleMean l = some m → v ≠ 0 →
        icStd l = some (Real.sqrt v) ∧ ic_ir l = some (m / Real.sqrt v)) ∧
    (∀ l, icStd l = some 0 → ic_ir l = none) := by
  refine ⟨fun bs h2 hall => ?_, fun l v m hv hm hne => ?_, fun l h => ?_⟩
  · rw [icSummary, bucketICs_all_neg_one bs hall]
    have hn0 : bs.length ≠ 0 := by omega
    have hv := sampleVar_replicate bs.length h2 (-1)
    refine Prod.ext ?_ (Prod.ext ?_ ?_)
    · exact sampleMean_replicate _ hn0 (-1)
    · show icStd (List.replicate bs.length (-1)) = some 0
      rw [icStd, hv]
      simp
    · show ic_ir (List.replicate bs.length (-1)) = none
      simp [ic_ir, hv, sampleMean_replicate _ hn0 (-1)]
  · exact ⟨by simp [icStd, hv], by simp [ic_ir, hv, hm, hne]⟩
  · rw [icStd] at h
    obtain ⟨v, hv, hs⟩ := Option.map_eq_some'.mp h
    have hv0 : v = 0 := (Real.sqrt_eq_zero (sampleVar_nonneg l v hv)).mp hs
    subst hv0
    simp [ic_ir, hv, sampleMean_of_var l 0 hv]

/-- Claim C7 witness: two buckets, each a perfectly anti-ordered pair of
windows, give per-bucket ICs `[-1, -1]` and summary `(-1, 0, NaN)`. -/
theorem ic_summary_spec_witness :
    icSummary (bucketICs [([1, 2], [2, 1]), ([1, 2], [2, 1])]) =
      (some (-1), some 0, none) := by
  refine ic_summary_spec.1 _ (by norm_num) ?_
  intro b hb
  rcases List.mem_cons.mp hb with h | h
  · rw [h]
    exact spearman_eval
  · rw [List.mem_singleton.mp h]
    exact spearman_eval

/-! ## Per-entity aggregation loop (`src/momentum_dashboard.py` lines 63-76)

For each selected index the dashboard fetches the full table, filters it
to the chosen date range, and — only when the filtered frame is nonempty —
runs `calc_momentum`, reads `df.iloc[-1]` and appends a result row.  When
the filtered frame is nonempty but `calc_momentum` drops every row,
`df.iloc[-1]` raises an `IndexError`, which nothing in
`momentum_dashboard.py` catches; this is modelled as an `Except.error`
that aborts the loop. -/

/-- The date-filtered fetched frame for one entity. -/
def filteredData (fetch : String → List (Nat × ℚ)) (s e : Nat)
    (idx : String) : List (Nat × ℚ) :=
  (get_data_md (fetch idx)).filter fun r => decide (s ≤ r.1 ∧ r.1 ≤ e)

/-- The `for idx in selected` loop: the result list holds
`(index, momentum, percentile)` of the last factor row per entity, in
selection order; entities whose filtered frame is empty are skipped;
`df.iloc[-1]` on an empty factor frame raises. -/
def dashboardResults (fetch : String → List (Nat × ℚ)) (s e w : Nat) :
    List String → Except String (List (String × ℚ × ℚ))
  | [] => .ok []
  | idx :: rest =>
    if (filteredData fetch s e idx).isEmpty then
      dashboardResults fetch s e w rest
    else
      match (calcMomentum (filteredData fetch s e idx) w).getLast? with
      | none => .error "IndexError: single positional indexer is out-of-bounds"
      | some last =>
        (dashboardResults fetch s e w rest).map fun rs =>
          (idx, last.2.2.1, last.2.2.2) :: rs

/-- Claim C10 counterexample: an entity whose raw fetch is nonempty while
its factor series is empty (one row, window 2) is not silently excluded:
the loop raises the `IndexError` of `df.iloc[-1]` instead of returning
the empty aggregation. -/
theorem empty_factor_series_not_excluded :
    dashboardResults (fun _ => [(1, 100)]) 0 5 2 ["A"] =
      .error "IndexError: single positional indexer is out-of-bounds" ∧
    dashboardResults (fun _ => [(1, 100)]) 0 5 2 ["A"] ≠ .ok [] := by
  exact ⟨rfl, fun h => Except.noConfusion h⟩

/-- Claim C10 as amended: whenever every selected entity with a nonempty
date-filtered fetch also has a nonempty factor series (so `df.iloc[-1]`
never raises), the loop succeeds, silently skips exactly the entities
whose date-filtered fetch is empty, and the result rows preserve the
selection order of the remaining entities. -/
theorem aggregation_order (fetch : String → List (Nat × ℚ)) (s e w : Nat)
    (selected : List String)
    (h : ∀ idx ∈ selected, filteredData fetch s e idx ≠ [] →
      calcMomentum (filteredData fetch s e idx) w ≠ []) :
    ∃ rows, dashboardResults fetch s e w selected = .ok rows ∧
      rows.map Prod.fst =
        selected.filter fun idx => !(filteredData fetch s e idx).isEmpty := by
  induction selected with
  | nil => exact ⟨[], rfl, rfl⟩
  | cons idx rest ih =>
    obtain ⟨rows, h1, h2⟩ := ih fun x hx => h x (List.mem_cons_of_mem _ hx)
    by_cases hdf : (filteredData fetch s e idx).isEmpty
    · refine ⟨rows, ?_, ?_⟩
      · rw [dashboardResults, if_pos hdf]
        exact h1
      · simp [List.filter_cons, hdf, h2]
    · have hne : filteredData fetch s e idx ≠ [] := fun hcon =>
        hdf (by simp [hcon])
      have hcm := h idx (List.mem_cons_self _ _) hne
      obtain ⟨last, hlast⟩ := Option.isSome_iff_exists.mp
        (List.getLast?_isSome.mpr hcm)
      refine ⟨(idx, last.2.2.1, last.2.2.2) :: rows, ?_, ?_⟩
      · rw [dashboardResults, if_neg hdf, hlast, h1]
        rfl
      · simp [List.filter_cons, hdf, h2]

/-- Concrete store map for the aggregation witness: entity B has no
data. -/
def exFetch : String → List (Nat × ℚ)
  | "A" => [(1, 1), (2, 2)]
  | "C" => [(1, 4), (2, 2)]
  | _ => []

/-- Claim C10 witness: selection `[A, B, C]` with B dataless yields
result rows for exactly `[A, C]`, in that order. -/
theorem aggregation_order_witness :
    ∃ rows, dashboardResults exFetch 1 2 1 ["A", "B", "C"] = .ok rows ∧
      rows.map Prod.fst = ["A", "C"] := by
  obtain ⟨rows, h1, h2⟩ := aggregation_order exFetch 1 2 1 ["A", "B", "C"]
    (by
      intro idx hidx
      simp only [List.mem_cons, List.not_mem_nil, or_false] at hidx
      rcases hidx with rfl | rfl | rfl <;> decide)
  exact ⟨rows, h1, by rw [h2]; decide⟩
